import Mathlib

/-!
Verification development for the self-healing CI pipeline backend
(`backend/agent/fixer.py`, `backend/agent/deterministic_fixer.py`,
`backend/agent/test_runner.py`, `backend/agent/pipeline.py`, `backend/app.py`).

Text is modelled as `List Char` so that every operation is a structurally
recursive, kernel-computable function.  Python string primitives
(`str.strip`, `str.rstrip`, `str.split`, truthiness of strings, 1-based
line arithmetic on unbounded ints) are translated explicitly below.
-/

/-! ## Python string primitives -/

/-- Characters treated as whitespace by Python `str.strip()` /
`str.lstrip()` / `str.rstrip()` with no argument (ASCII range):
space, tab, newline, carriage return, vertical tab, form feed. -/
def isPySpace (c : Char) : Bool :=
  c == ' ' || c == '\t' || c == '\n' || c == '\r' ||
  c == Char.ofNat 11 || c == Char.ofNat 12

/-- Python `s.lstrip()`. -/
def lstripWs (l : List Char) : List Char :=
  l.dropWhile isPySpace

/-- Python `s.rstrip()`. -/
def rstripWs (l : List Char) : List Char :=
  (l.reverse.dropWhile isPySpace).reverse

/-- Python `s.strip()`. -/
def stripWs (l : List Char) : List Char :=
  rstripWs (lstripWs l)

/-- Python `s.rstrip(c)` for a single-character argument: removes every
trailing occurrence of `c`. -/
def rstripChar (c : Char) (l : List Char) : List Char :=
  (l.reverse.dropWhile (· == c)).reverse

/-- Python `line.rstrip("\n").rstrip("\r")` as used by
`fixer.apply_fixes` to strip a line terminator before comparing. -/
def pyDropEol (l : List Char) : List Char :=
  rstripChar '\r' (rstripChar '\n' l)

/-- Python `line.endswith("\r\n")`. -/
def endsCrLf (l : List Char) : Bool :=
  List.isSuffixOf ['\r', '\n'] l

/-! ## Patch engine — `backend/agent/fixer.py`, `apply_fixes`

`apply_fixes(repo_path, fixes)` loops over the patch list and processes
each patch independently against the file it names.  The per-patch body
(fixer.py lines 23-80) is modelled here as a pure function from the
file's current line list (as produced by `readlines()`, i.e. each
element still carries its terminator) to the new line list plus the
resulting status.  The `os.path.exists` guard (fixer.py line 24) marks
the patch failed without touching the file when the file is absent; the
function below models the body that runs when the file exists.  On the
failure paths the function returns the input list unchanged, matching
the fact that `fixer.py` only reaches the `f.writelines(lines)` call on
the success path, so the on-disk contents are untouched.  The
`status_message` strings are not modelled; only `status` is. -/

/-- Outcome recorded into a patch dict by `apply_fixes`
(`fix["status"] = "applied" / "failed"`). -/
inductive FixStatus where
  | applied
  | failed
deriving Repr, DecidableEq

/-- One fix dict as consumed by `apply_fixes`: `fix["file"]`,
`fix["line"]` (a 1-based Python int, hence `Int`),
`fix.get("old_code", "")` and `fix.get("new_code", "")`.  A JSON `null`
`new_code` behaves exactly like the empty string in `apply_fixes`
(`if new_code == "" or new_code is None`), so it is collapsed to `[]`. -/
structure PatchFix where
  file : List Char
  line : Int
  old_code : List Char
  new_code : List Char
deriving Repr, DecidableEq

/-- The comparison `line.rstrip("\n").rstrip("\r").strip() ==
old_code.strip()` from fixer.py lines 45 and 49 (`oldC` is the already
stripped `old_code` local, which Python strips a second time). -/
def lineMatches (oldC : List Char) (l : List Char) : Bool :=
  stripWs (pyDropEol l) == stripWs oldC

/-- Verification step of `apply_fixes` (fixer.py lines 41-58), given the
0-based index `idx0` already known to be in range: when the stripped
`old_code` is non-empty and does not match the target line, scan the
whole file for the first line with trimmed-equal content (`for i, line
in enumerate(lines)`); otherwise keep `idx0`.  Returns the effective
0-based index, or `none` when verification fails. -/
def verifyIdx (lines : List (List Char)) (fx : PatchFix) (idx0 : Nat) : Option Nat :=
  if (stripWs fx.old_code).isEmpty then some idx0
  else if lineMatches (stripWs fx.old_code) (lines.getD idx0 []) then some idx0
  else lines.findIdx? (lineMatches (stripWs fx.old_code))

/-- The terminator appended on replacement (fixer.py lines 66-69):
`"\r\n"` when the current line ends with `"\r\n"`, else `"\n"`. -/
def eolOf (l : List Char) : List Char :=
  if endsCrLf l then ['\r', '\n'] else ['\n']

/-- Per-patch body of `apply_fixes` (fixer.py lines 30-80) for an
existing file given as its `readlines()` line list. -/
def applyOneFix (lines : List (List Char)) (fx : PatchFix) : List (List Char) × FixStatus :=
  let lineIdx : Int := fx.line - 1
  if lineIdx < 0 ∨ (lines.length : Int) ≤ lineIdx then
    (lines, .failed)
  else
    match verifyIdx lines fx lineIdx.toNat with
    | none => (lines, .failed)
    | some idx =>
      if fx.new_code = [] then
        (lines.eraseIdx idx, .applied)
      else
        (lines.set idx (fx.new_code ++ eolOf (lines.getD idx [])), .applied)

/-! ### Helper lemmas about list scanning -/

theorem getD_mem_of_lt {α : Type} (l : List α) (i : Nat) (d : α) (h : i < l.length) :
    l.getD i d ∈ l := by
  simp only [List.getD_eq_getElem?_getD, List.getElem?_eq_getElem h, Option.getD_some]
  exact List.getElem_mem h

theorem findIdx?_some_bound {α : Type} (p : α → Bool) :
    ∀ (l : List α) (j : Nat), l.findIdx? p = some j → j < l.length := by
  intro l
  induction l with
  | nil => intro j h; simp [List.findIdx?] at h
  | cons a t ih =>
    intro j h
    rw [List.findIdx?_cons] at h
    by_cases hp : p a
    · simp [hp] at h
      simp [← h]
    · rw [if_neg (by simp [hp]), List.findIdx?_succ] at h
      rcases Option.map_eq_some'.mp h with ⟨i, hi, hij⟩
      have := ih i hi
      simp only [List.length_cons]
      omega

theorem verifyIdx_lt (lines : List (List Char)) (fx : PatchFix) (idx0 j : Nat)
    (h0 : idx0 < lines.length) (h : verifyIdx lines fx idx0 = some j) :
    j < lines.length := by
  unfold verifyIdx at h
  by_cases he : (stripWs fx.old_code).isEmpty
  · rw [if_pos he] at h
    simp only [Option.some.injEq] at h
    omega
  · rw [if_neg he] at h
    by_cases hm : lineMatches (stripWs fx.old_code) (lines.getD idx0 []) = true
    · rw [if_pos hm] at h
      simp only [Option.some.injEq] at h
      omega
    · rw [if_neg hm] at h
      exact findIdx?_some_bound (lineMatches (stripWs fx.old_code)) lines j h

/-! ### Claims C1, C4, C10 -/

/-- Claim C1: for every patch whose trimmed `old_text` is non-empty,
does not match the trimmed content of the line at the patch's 1-based
index, and is not found (trimmed-equal) on any other line of the file,
`apply_fixes` marks that patch with status `failed` and leaves the
file's on-disk contents unchanged.  (The hypothesis quantifies over all
lines of the file, which covers both the line at the patch's index and
every other line.) -/
theorem apply_fix_nomatch_failed (lines : List (List Char)) (fx : PatchFix)
    (hne : stripWs fx.old_code ≠ [])
    (hlo : 1 ≤ fx.line) (hhi : fx.line ≤ (lines.length : Int))
    (hnm : ∀ l ∈ lines, lineMatches (stripWs fx.old_code) l = false) :
    applyOneFix lines fx = (lines, .failed) := by
  unfold applyOneFix
  have hrange : ¬ (fx.line - 1 < 0 ∨ (lines.length : Int) ≤ fx.line - 1) := by omega
  rw [if_neg hrange]
  have hidx : (fx.line - 1).toNat < lines.length := by omega
  have hv : verifyIdx lines fx (fx.line - 1).toNat = none := by
    unfold verifyIdx
    have hie : ¬ (stripWs fx.old_code).isEmpty = true := by
      simpa [List.isEmpty_iff] using hne
    rw [if_neg hie]
    have hmt0 : lineMatches (stripWs fx.old_code) (lines.getD (fx.line - 1).toNat []) = false :=
      hnm _ (getD_mem_of_lt lines _ [] hidx)
    have hmt : ¬ lineMatches (stripWs fx.old_code) (lines.getD (fx.line - 1).toNat []) = true := by
      rw [hmt0]
      exact Bool.false_ne_true
    rw [if_neg hmt]
    exact List.findIdx?_eq_none_iff.mpr hnm
  rw [hv]

/-- Concrete patch for the C1 witness: its `old_code` matches no line of
the one-line file it is applied to. -/
def fixC1 : PatchFix :=
  { file := "a.py".data, line := 1,
    old_code := "y = 2".data, new_code := "z = 3".data }

/-- Witness for C1: a concrete one-line file and a patch whose
`old_code` matches nowhere is left failed with the file unchanged. -/
theorem apply_fix_nomatch_failed_witness :
    applyOneFix ["x = 1\n".data] fixC1 = (["x = 1\n".data], .failed) :=
  apply_fix_nomatch_failed _ _ (by decide) (by decide) (by decide) (by decide)

/-- Claim C10: for every patch whose `old_code` is empty (or missing)
after trimming, `apply_fixes` performs no content verification and no
relocation scan: whenever the file exists and the 1-based line index is
in range, the patch is applied at that index unconditionally, regardless
of what the line currently contains. -/
theorem apply_fix_empty_old_applied (lines : List (List Char)) (fx : PatchFix)
    (hemp : stripWs fx.old_code = [])
    (hlo : 1 ≤ fx.line) (hhi : fx.line ≤ (lines.length : Int)) :
    applyOneFix lines fx =
      (if fx.new_code = [] then lines.eraseIdx (fx.line - 1).toNat
       else lines.set (fx.line - 1).toNat
         (fx.new_code ++ eolOf (lines.getD (fx.line - 1).toNat [])), .applied) := by
  unfold applyOneFix
  have hrange : ¬ (fx.line - 1 < 0 ∨ (lines.length : Int) ≤ fx.line - 1) := by omega
  rw [if_neg hrange]
  have hv : verifyIdx lines fx (fx.line - 1).toNat = some (fx.line - 1).toNat := by
    unfold verifyIdx
    have hie : (stripWs fx.old_code).isEmpty = true := by
      simp [hemp]
    simp [hie]
  rw [hv]
  by_cases hn : fx.new_code = [] <;> simp [hn]

/-- Concrete patch for the C10 witness: it has no `old_code` and
replaces line 2 with `c`. -/
def fixC10 : PatchFix :=
  { file := "m.py".data, line := 2,
    old_code := [], new_code := "c".data }

/-- Witness for C10: a patch with no `old_code` replaces line 2 of a
concrete file even though the line contains something unrelated. -/
theorem apply_fix_empty_old_applied_witness :
    applyOneFix ["a\n".data, "b\n".data] fixC10 =
      (["a\n".data, "c\n".data], .applied) := by
  have h := apply_fix_empty_old_applied ["a\n".data, "b\n".data] fixC10
    (by decide) (by decide) (by decide)
  simpa using h

/-- Claim C4: for every patch with empty `new_text` whose precondition
holds (file exists, line index in range, and the verification step
resolves an effective target index `j` — i.e. trimmed `old_text` is
empty, matches the target line, or is relocated to the first
trimmed-equal line), `apply_fixes` removes exactly the targeted line:
the result is the file with line `j` deleted, so the line count
decreases by exactly one and every other line is kept, in order. -/
theorem apply_fix_delete (lines : List (List Char)) (fx : PatchFix) (j : Nat)
    (hlo : 1 ≤ fx.line) (hhi : fx.line ≤ (lines.length : Int))
    (hnc : fx.new_code = [])
    (hv : verifyIdx lines fx (fx.line - 1).toNat = some j) :
    applyOneFix lines fx = (lines.take j ++ lines.drop (j + 1), .applied) ∧
      (lines.take j ++ lines.drop (j + 1)).length + 1 = lines.length := by
  have hidx : (fx.line - 1).toNat < lines.length := by omega
  have hj : j < lines.length := verifyIdx_lt lines fx _ j hidx hv
  have herase : lines.eraseIdx j = lines.take j ++ lines.drop (j + 1) :=
    List.eraseIdx_eq_take_drop_succ lines j
  constructor
  · unfold applyOneFix
    have hrange : ¬ (fx.line - 1 < 0 ∨ (lines.length : Int) ≤ fx.line - 1) := by omega
    rw [if_neg hrange]
    rw [hv]
    simp [hnc, herase]
  · rw [← herase]
    have := List.length_eraseIdx_of_lt hj
    omega

/-- Concrete patch for the C4 witness: empty `new_code` (deletion) whose
`old_code` matches line 2 up to surrounding whitespace. -/
def fixC4 : PatchFix :=
  { file := "m.py".data, line := 2,
    old_code := "b".data, new_code := [] }

/-- Witness for C4: deleting line 2 shortens a three-line file to the
other two lines. -/
theorem apply_fix_delete_witness :
    applyOneFix ["a\n".data, "  b\n".data, "c\n".data] fixC4 =
      (["a\n".data, "c\n".data], .applied) ∧
      (["a\n".data, "c\n".data] : List (List Char)).length + 1 =
        (["a\n".data, "  b\n".data, "c\n".data] : List (List Char)).length := by
  have h := apply_fix_delete ["a\n".data, "  b\n".data, "c\n".data] fixC4
    1 (by decide) (by decide) (by decide) (by decide)
  simpa using h

/-! ## Deterministic defect detector — `backend/agent/deterministic_fixer.py`

The indentation scan (`_detect_indentation_errors`) recomputes the
correct indentation of an offending line with `_determine_correct_indent
(lines, idx)` where `idx` is the 0-based index of that line.  The Python
body iterates `for i in range(idx - 1, -1, -1)` over the preceding
lines.  Note that the inner `for kw in ("return ", ...)` loop inside it
(deterministic_fixer.py lines 405-410) only ever executes `continue`
statements of that inner loop, so it has no observable effect and is
omitted from the model.  `prev_indent = len(prev) - len(prev.lstrip())`
is the number of leading whitespace characters. -/

/-- Number of leading whitespace characters of a line:
`len(prev) - len(prev.lstrip())`. -/
def indentOf (l : List Char) : Nat :=
  (l.takeWhile isPySpace).length

/-- Python `stripped.endswith(":")` for a single character. -/
def endsWithChar (c : Char) (l : List Char) : Bool :=
  l.getLast? == some c

/-- Python `stripped.startswith("#")`. -/
def startsWithHash (l : List Char) : Bool :=
  match l with
  | [] => false
  | c :: _ => c == '#'

/-- Backward scan of `_determine_correct_indent` (deterministic_fixer.py
lines 396-419): examining line `i` for the argument `i + 1`, recursing
to smaller indices, and returning the empty indent once index 0 is
passed (`return ""`, top level). -/
def scanIndentBack (lines : List (List Char)) : Nat → List Char
  | 0 => []
  | i + 1 =>
    let prev := lines.getD i []
    let stripped := stripWs prev
    if stripped.isEmpty || startsWithHash stripped then scanIndentBack lines i
    else if endsWithChar ':' stripped then List.replicate (indentOf prev + 4) ' '
    else if indentOf prev % 4 == 0 then List.replicate (indentOf prev) ' '
    else scanIndentBack lines i

/-- The function `_determine_correct_indent(lines, idx)`
(deterministic_fixer.py lines 385-421): scan backward from `idx - 1`
down to 0. -/
def determineCorrectIndent (lines : List (List Char)) (idx : Nat) : List Char :=
  scanIndentBack lines idx

/-- A line the backward scan stops at, in the words of the claim:
non-blank, non-comment, and either ending with the block terminator or
indented by a multiple of the 4-space unit. -/
def indentRelevant (l : List Char) : Bool :=
  !(stripWs l).isEmpty && !startsWithHash (stripWs l) &&
    (endsWithChar ':' (stripWs l) || indentOf l % 4 == 0)

/-- The claim C6 statement of the backward scan, written declaratively:
take the nearest preceding line satisfying `indentRelevant` (searching
the reversed prefix), and map it through the two result cases; with no
such line the result is the zero indent. -/
def claimIndent (lines : List (List Char)) (idx : Nat) : List Char :=
  match ((lines.take idx).reverse).find? indentRelevant with
  | none => []
  | some l =>
    if endsWithChar ':' (stripWs l) then List.replicate (indentOf l + 4) ' '
    else List.replicate (indentOf l) ' '

/-- Claim C6: for every line sequence and target index, the
indentation-inference function `_determine_correct_indent` returns the
indent obtained by scanning backward for the nearest non-blank,
non-comment line: if that line ends with the block terminator the result
is that line's indent plus one 4-space unit; if its indent is a multiple
of 4 the result is that indent; lines with non-conforming indentation
are skipped and the scan continues; if no such line exists the result is
the zero indent. -/
theorem determine_correct_indent_eq_claim (lines : List (List Char)) (idx : Nat) :
    determineCorrectIndent lines idx = claimIndent lines idx := by
  unfold determineCorrectIndent
  induction idx with
  | zero => rfl
  | succ i ih =>
    by_cases h : i < lines.length
    · have htake : (lines.take (i + 1)).reverse = lines.getD i [] :: (lines.take i).reverse := by
        rw [List.take_succ, List.getElem?_eq_getElem h]
        simp [List.getD_eq_getElem?_getD, List.getElem?_eq_getElem h]
      unfold claimIndent
      rw [htake]
      by_cases hb1 : ((stripWs (lines.getD i [])).isEmpty
          || startsWithHash (stripWs (lines.getD i []))) = true
      · have hrel : indentRelevant (lines.getD i []) = false := by
          unfold indentRelevant
          cases hA : (stripWs (lines.getD i [])).isEmpty <;>
            cases hB : startsWithHash (stripWs (lines.getD i [])) <;>
            simp_all
        have hstep : scanIndentBack lines (i + 1) = scanIndentBack lines i := by
          simp only [scanIndentBack]
          rw [if_pos hb1]
        rw [List.find?_cons_of_neg _ (by simpa using hrel), hstep, ih]
        rfl
      · by_cases hb2 : endsWithChar ':' (stripWs (lines.getD i [])) = true
        · have hrel : indentRelevant (lines.getD i []) = true := by
            unfold indentRelevant
            cases hA : (stripWs (lines.getD i [])).isEmpty <;>
              cases hB : startsWithHash (stripWs (lines.getD i [])) <;>
              simp_all
          have hstep : scanIndentBack lines (i + 1) =
              List.replicate (indentOf (lines.getD i []) + 4) ' ' := by
            simp only [scanIndentBack]
            rw [if_neg hb1, if_pos hb2]
          rw [List.find?_cons_of_pos _ hrel, hstep]
          exact (if_pos hb2).symm
        · by_cases hb3 : (indentOf (lines.getD i []) % 4 == 0) = true
          · have hrel : indentRelevant (lines.getD i []) = true := by
              unfold indentRelevant
              cases hA : (stripWs (lines.getD i [])).isEmpty <;>
                cases hB : startsWithHash (stripWs (lines.getD i [])) <;>
                simp_all
            have hstep : scanIndentBack lines (i + 1) =
                List.replicate (indentOf (lines.getD i [])) ' ' := by
              simp only [scanIndentBack]
              rw [if_neg hb1, if_neg hb2, if_pos hb3]
            rw [List.find?_cons_of_pos _ hrel, hstep]
            exact (if_neg hb2).symm
          · have hrel : indentRelevant (lines.getD i []) = false := by
              unfold indentRelevant
              cases hA : (stripWs (lines.getD i [])).isEmpty <;>
                cases hB : startsWithHash (stripWs (lines.getD i [])) <;>
                simp_all
            have hstep : scanIndentBack lines (i + 1) = scanIndentBack lines i := by
              simp only [scanIndentBack]
              rw [if_neg hb1, if_neg hb2, if_neg hb3]
            rw [List.find?_cons_of_neg _ (by simpa using hrel), hstep, ih]
            rfl
    · have htake1 : lines.take (i + 1) = lines.take i := by
        rw [List.take_of_length_le (by omega), List.take_of_length_le (by omega)]
      have hget : lines.getD i [] = [] := by
        simp [List.getD_eq_getElem?_getD, List.getElem?_eq_none (by omega : lines.length <= i)]
      have hstep : scanIndentBack lines (i + 1) = scanIndentBack lines i := by
        simp only [scanIndentBack]
        rw [hget]
        rfl
      rw [hstep, ih]
      unfold claimIndent
      rw [htake1]

/-! ## Parse-failure scan — `_try_fix_syntax`

`_detect_syntax_errors` attempts `ast.parse` on every source file and,
on a `SyntaxError`, calls `_try_fix_syntax(fpath, rel_path, source,
line_no, msg)`.  That helper is modelled below as `tryFixSyntaxError`.
The regular expression `colon_keywords` (deterministic_fixer.py line
68) is translated operator by operator; since the character classes of
adjacent greedy pieces are disjoint (`\s` vs. `\w`, `\w` vs. `(`), the
maximal-munch translation is exact.  Here `.` matches any character
except a newline and `$` matches the end of the string (the lines fed
to the regex come from `source.split("\n")` and contain no newline).
Python `\w` is approximated by ASCII alphanumerics plus underscore. -/

/-- Python regex `\w` (ASCII range). -/
def isWordChar (c : Char) : Bool :=
  c.isAlphanum || c == '_'

/-- Consume an exact literal from the front of the input. -/
def dropLit : List Char → List Char → Option (List Char)
  | [], r => some r
  | _ :: _, [] => none
  | c :: cs, r :: rs => if r == c then dropLit cs rs else none

/-- Consume one-or-more characters satisfying the class greedily
(`\s+` / `\w+`). -/
def dropPlus (p : Char → Bool) : List Char → Option (List Char)
  | [] => none
  | c :: cs => if p c then some (cs.dropWhile p) else none

/-- Whether a remainder matches `.*\s*$`: everything from the first
newline on must be whitespace (the dot cannot cross a newline). -/
def restDotStarWs (rest : List Char) : Bool :=
  (rest.dropWhile (fun c => !(c == '\n'))).all isPySpace

/-- Whether a remainder matches `.+\s*$`. -/
def restDotPlusWs (rest : List Char) : Bool :=
  match rest with
  | [] => false
  | c :: _ => !(c == '\n') && restDotStarWs rest

/-- Whether a remainder matches `.*\)\s*$`: some newline-free prefix,
then a closing parenthesis followed only by whitespace. -/
def closeParenTail : List Char → Bool
  | [] => false
  | c :: cs =>
    if c == ')' && cs.all isPySpace then true
    else if c == '\n' then false
    else closeParenTail cs

/-- Alternative `def\s+\w+\(.*\)` of `colon_keywords` (with the
trailing `\s*$` of the whole pattern). -/
def defAlt (rest : List Char) : Bool :=
  match dropLit "def".data rest with
  | none => false
  | some r1 =>
    match dropPlus isPySpace r1 with
    | none => false
    | some r2 =>
      match dropPlus isWordChar r2 with
      | none => false
      | some r3 =>
        match dropLit "(".data r3 with
        | none => false
        | some r4 => closeParenTail r4

/-- Alternative `class\s+\w+.*` (with the trailing `\s*$`). -/
def classAlt (rest : List Char) : Bool :=
  match dropLit "class".data rest with
  | none => false
  | some r1 =>
    match dropPlus isPySpace r1 with
    | none => false
    | some r2 =>
      match dropPlus isWordChar r2 with
      | none => false
      | some r3 => restDotStarWs r3

/-- Alternatives of shape `kw\s+.+` (if / elif / for / while / with),
with the trailing `\s*$`. -/
def kwPlusAlt (kw : List Char) (rest : List Char) : Bool :=
  match dropLit kw rest with
  | none => false
  | some r1 =>
    match dropPlus isPySpace r1 with
    | none => false
    | some r2 => restDotPlusWs r2

/-- Alternatives that are a bare keyword (else / try / finally), with
the trailing `\s*$`. -/
def bareAlt (kw : List Char) (rest : List Char) : Bool :=
  match dropLit kw rest with
  | none => false
  | some r1 => r1.all isPySpace

/-- Alternative `except.*` (with the trailing `\s*$`). -/
def exceptAlt (rest : List Char) : Bool :=
  match dropLit "except".data rest with
  | none => false
  | some r1 => restDotStarWs r1

/-- The regex `colon_keywords` of `_try_fix_syntax`
(deterministic_fixer.py line 68), applied with `re.match`: leading
`^\s*`, then the alternation, then `\s*$` (folded into each
alternative). -/
def matchColonKeywords (line : List Char) : Bool :=
  let rest := line.dropWhile isPySpace
  defAlt rest || classAlt rest || kwPlusAlt "if".data rest ||
    kwPlusAlt "elif".data rest || bareAlt "else".data rest ||
    kwPlusAlt "for".data rest || kwPlusAlt "while".data rest ||
    kwPlusAlt "with".data rest || bareAlt "try".data rest ||
    exceptAlt rest || bareAlt "finally".data rest

/-- Condition under which a line receives a colon-appending patch:
`re.match(colon_keywords, line) and not line.rstrip().endswith(":")`. -/
def colonFixable (l : List Char) : Bool :=
  matchColonKeywords l && !endsWithChar ':' (rstripWs l)

/-- The apostrophe character, U+0027. -/
def apos : Char := Char.ofNat 39

/-- The literal searched for (and also used as the always-truthy right
operand of `or`) in the Pattern-2 guard of `_try_fix_syntax`:
the text `expected ':'`. -/
def expectedColonNeedle : List Char :=
  "expected ".data ++ [apos, ':', apos]

/-- Python `s.lower()` (ASCII approximation). -/
def pyLower (l : List Char) : List Char :=
  l.map Char.toLower

/-- Python substring containment `needle in haystack`. -/
def containsSub (needle : List Char) : List Char → Bool
  | [] => needle.isEmpty
  | c :: cs => List.isPrefixOf needle (c :: cs) || containsSub needle cs

/-- Python `source.split("\n")`. -/
def splitNl : List Char → List (List Char)
  | [] => [[]]
  | c :: cs =>
    if c == '\n' then [] :: splitNl cs
    else
      match splitNl cs with
      | [] => [[c]]
      | h :: t => (c :: h) :: t

/-- The function `_try_fix_syntax(fpath, rel_path, source, line_no,
error_msg)` (deterministic_fixer.py lines 63-103), returning the patch
dict or `None`.  The Pattern-2 guard is translated verbatim:
`"expected ':'" in error_msg.lower() or "expected ':'"` — the right
operand of `or` is a non-empty string literal and therefore truthy, so
the disjunction holds for every error message.  The `bug_type` and
`description` fields of the returned dict are not modelled. -/
def tryFixSyntaxError (relPath : List Char) (source : List Char)
    (lineNo : Int) (errorMsg : List Char) : Option PatchFix :=
  let lines := splitNl source
  if lineNo < 1 ∨ (lines.length : Int) < lineNo then none
  else
    let line := lines.getD (lineNo.toNat - 1) []
    if colonFixable line then
      some { file := relPath, line := lineNo,
             old_code := rstripWs line, new_code := rstripWs line ++ [':'] }
    else
      if containsSub expectedColonNeedle (pyLower errorMsg) || true then
        if 2 ≤ lineNo then
          let prev := lines.getD (lineNo.toNat - 2) []
          if colonFixable prev then
            some { file := relPath, line := lineNo - 1,
                   old_code := rstripWs prev, new_code := rstripWs prev ++ [':'] }
          else none
        else none
      else none

/-- Claim C5 counterexample: the error message `invalid syntax` is not
in the `expected ':'` class (the needle does not occur in it), the
offending line `pass` matches no block-opening construct, and yet
`_try_fix_syntax` emits a colon patch for the preceding line — because
the Pattern-2 guard's `or "expected ':'"` operand is a truthy constant.
Under the claim as stated this input matches neither heuristic and no
patch may be emitted. -/
theorem tryFixSyntaxError_cex :
    tryFixSyntaxError "calc.py".data "def f(x)\npass".data 2 "invalid syntax".data =
      some { file := "calc.py".data, line := 1,
             old_code := "def f(x)".data, new_code := "def f(x):".data } ∧
    containsSub expectedColonNeedle (pyLower "invalid syntax".data) = false := by
  constructor
  · decide
  · decide

/-- Claim C5 as amended: in the parse-failure scan the previous-line
colon heuristic is attempted for every error-message class (the guard
`"expected ':'" in error_msg.lower() or "expected ':'"` has a constant
truthy right operand, so the result never depends on the message), and
it inspects exactly the immediately preceding line, without skipping
blank or comment lines; when neither the offending line nor the
immediately preceding line is a colon-missing block opener, no patch is
emitted. -/
theorem tryFixSyntaxError_amended (rel src : List Char) (n : Int) (m m2 : List Char) :
    tryFixSyntaxError rel src n m = tryFixSyntaxError rel src n m2 ∧
    (colonFixable ((splitNl src).getD (n.toNat - 1) []) = false →
     colonFixable ((splitNl src).getD (n.toNat - 2) []) = false →
     tryFixSyntaxError rel src n m = none) := by
  constructor
  · simp only [tryFixSyntaxError, Bool.or_true]
  · intro h1 h2
    simp only [tryFixSyntaxError, Bool.or_true]
    by_cases hr : n < 1 ∨ ((splitNl src).length : Int) < n
    · rw [if_pos hr]
    · rw [if_neg hr, if_neg (by simpa using h1), if_pos trivial]
      by_cases h2n : 2 ≤ n
      · rw [if_pos h2n, if_neg (by simpa using h2)]
      · rw [if_neg h2n]

/-- Witness for the amended C5: on a file whose lines open no block the
result is `none` and is the same for two different messages. -/
theorem tryFixSyntaxError_amended_witness :
    tryFixSyntaxError "a.py".data "x = 1\ny = 2".data 2 "bad".data =
      tryFixSyntaxError "a.py".data "x = 1\ny = 2".data 2 "worse".data ∧
    tryFixSyntaxError "a.py".data "x = 1\ny = 2".data 2 "bad".data = none := by
  have h := tryFixSyntaxError_amended "a.py".data "x = 1\ny = 2".data 2
    "bad".data "worse".data
  exact ⟨h.1, h.2 (by decide) (by decide)⟩

/-! ## Result parser — `backend/agent/test_runner.py`, `parse_pytest_output`

`parse_pytest_output(output, repo_path)` is a pure function of the
output text (the `repo_path` parameter is unused in its body).  Its
three regular expressions are translated match-step by match-step.  In
each of them every greedy one-or-more piece is followed by a character
from a disjoint class, so the maximal-munch translation is exact; the
lazy pieces (`.*?` under `re.DOTALL`) extend to the first position
where the following delimiter or lookahead succeeds.  `re.findall`
scans left to right, advancing one character on failure and to the end
of the match on success (no pattern here can match the empty string);
`re.search` returns the first match in the same scan order.

Python `int()` on a captured group is modelled by the fallible `pyInt`,
so the parser returns an `Option`; totality (the `int` calls never
fail, hence the parser never throws) is proved below. -/

/-- One parsed failure dict:
`{test_name, file, line, error_message}`. -/
structure FailureRecord where
  test_name : List Char
  file : List Char
  line : Nat
  error_message : List Char
deriving Repr, DecidableEq

/-- Character class `[\w/\\.]` (used with the dot in
`failed_pattern` and in the collection-error pattern). -/
def isFileChar (c : Char) : Bool :=
  isWordChar c || c == '/' || c == '\\' || c == '.'

/-- Character class `[\w/\\]` (no dot; used in the per-block
`path:line` pattern). -/
def isPathChar (c : Char) : Bool :=
  isWordChar c || c == '/' || c == '\\'

/-- Python `int()` on a regex capture: defined on non-empty digit
strings, `none` otherwise (where Python would raise `ValueError`). -/
def pyInt (l : List Char) : Option Nat :=
  if l ≠ [] ∧ l.all Char.isDigit then
    some (l.foldl (fun acc c => acc * 10 + (c.toNat - 48)) 0)
  else none

/-- Python `s.replace("\\", "/")`. -/
def replaceBackslash (l : List Char) : List Char :=
  l.map (fun c => if c == '\\' then '/' else c)

/-- One match attempt of
`failed_pattern = FAILED\s+([\w/\\.]+)::(\w+)` at the current position:
returns the two groups and the remainder after the match. -/
def matchFailedAt (l : List Char) : Option ((List Char × List Char) × List Char) :=
  match dropLit "FAILED".data l with
  | none => none
  | some r1 =>
    match dropPlus isPySpace r1 with
    | none => none
    | some r2 =>
      let g1 := r2.takeWhile isFileChar
      let r3 := r2.dropWhile isFileChar
      if g1.isEmpty then none
      else
        match dropLit "::".data r3 with
        | none => none
        | some r4 =>
          let g2 := r4.takeWhile isWordChar
          let r5 := r4.dropWhile isWordChar
          if g2.isEmpty then none else some ((g1, g2), r5)

/-- Whether the input starts with five underscores (`_{5,}` viability,
also the body-terminating lookahead of the block pattern). -/
def startsUnd5 : List Char → Bool
  | '_' :: '_' :: '_' :: '_' :: '_' :: _ => true
  | _ => false

/-- Split off the lazy block body `(.*?)(?=_{5,}|\Z)` under `DOTALL`:
everything up to the first position where a five-underscore run starts
(left there unconsumed), or to the end of the input. -/
def takeUntilUnd5 : List Char → List Char × List Char
  | [] => ([], [])
  | c :: cs =>
    if startsUnd5 (c :: cs) then ([], c :: cs)
    else
      let (b, r) := takeUntilUnd5 cs
      (c :: b, r)

/-- One match attempt of
`error_block_pattern = _{5,}\s+(\S+)\s+_{5,}(.*?)(?=_{5,}|\Z)`
(`re.DOTALL`) at the current position: returns the test name and the
block body, and the remainder (the unconsumed lookahead text). -/
def matchBlockAt (l : List Char) : Option ((List Char × List Char) × List Char) :=
  let us1 := l.takeWhile (· == '_')
  let r1 := l.dropWhile (· == '_')
  if us1.length < 5 then none
  else
    match dropPlus isPySpace r1 with
    | none => none
    | some r2 =>
      let name := r2.takeWhile (fun c => !isPySpace c)
      let r3 := r2.dropWhile (fun c => !isPySpace c)
      if name.isEmpty then none
      else
        match dropPlus isPySpace r3 with
        | none => none
        | some r4 =>
          let us2 := r4.takeWhile (· == '_')
          let r5 := r4.dropWhile (· == '_')
          if us2.length < 5 then none
          else
            let br := takeUntilUnd5 r5
            some ((name, br.1), br.2)

/-- One match attempt of `([\w/\\]+\.py):(\d+)` at the current
position: returns the file group (including `.py`) and the digit
group. -/
def matchFileLineAt (l : List Char) : Option ((List Char × List Char) × List Char) :=
  let a := l.takeWhile isPathChar
  let r1 := l.dropWhile isPathChar
  if a.isEmpty then none
  else
    match dropLit ".py".data r1 with
    | none => none
    | some r2 =>
      match r2 with
      | ':' :: r3 =>
        let digits := r3.takeWhile Char.isDigit
        let r4 := r3.dropWhile Char.isDigit
        if digits.isEmpty then none
        else some ((a ++ ".py".data, digits), r4)
      | _ => none

/-- One match attempt of `line\s+(\d+)` at the current position. -/
def matchLineNumAt (l : List Char) : Option (List Char × List Char) :=
  match dropLit "line".data l with
  | none => none
  | some r1 =>
    match dropPlus isPySpace r1 with
    | none => none
    | some r2 =>
      let digits := r2.takeWhile Char.isDigit
      let r3 := r2.dropWhile Char.isDigit
      if digits.isEmpty then none else some (digits, r3)

/-- `re.findall` scan: try the match at each position, restart after
each (non-empty) match, advance one character after a failure.  All
matchers above consume at least one character on success, so the input
length bounds the number of steps. -/
def findAllAux {β : Type} (matchAt : List Char → Option (β × List Char)) :
    Nat → List Char → List β
  | 0, _ => []
  | _, [] => []
  | fuel + 1, c :: cs =>
    match matchAt (c :: cs) with
    | some (b, rest) => b :: findAllAux matchAt fuel rest
    | none => findAllAux matchAt fuel cs

/-- `re.findall` over the whole input. -/
def pyFindAll {β : Type} (matchAt : List Char → Option (β × List Char))
    (l : List Char) : List β :=
  findAllAux matchAt l.length l

/-- `re.search`: the first match in left-to-right scan order. -/
def searchFirst {β : Type} (matchAt : List Char → Option (β × List Char)) :
    List Char → Option β
  | [] => (matchAt []).map (·.1)
  | c :: cs =>
    match matchAt (c :: cs) with
    | some (b, _) => some b
    | none => searchFirst matchAt cs

/-- Suffix of the input after its first newline, or `none`. -/
def afterFirstNl : List Char → Option (List Char)
  | [] => none
  | c :: cs => if c == '\n' then some cs else afterFirstNl cs

/-- Suffix of the input strictly after its last newline, or `none` when
it contains no newline. -/
def afterLastNl (l : List Char) : Option (List Char) :=
  if l.contains '\n' then some ((l.reverse.takeWhile (fun c => !(c == '\n'))).reverse)
  else none

/-- The `\s*.*?\n` segment of the collection-error pattern, resolved
under Python backtracking (greedy `\s*` tried longest first, then the
lazy dotted piece, `.` matching newlines under `DOTALL`): the match
consumes through the first newline after the maximal whitespace run
when one exists, otherwise through the last newline inside that run,
otherwise the whole match attempt fails.  Returns the remainder after
the consumed newline. -/
def wsDotNl (l : List Char) : Option (List Char) :=
  let pre := l.takeWhile isPySpace
  let tail := l.dropWhile isPySpace
  match afterFirstNl tail with
  | some after => some after
  | none =>
    match afterLastNl pre with
    | some sufPre => some (sufPre ++ tail)
    | none => none

/-- Split off the lazy detail `(.*?)(?=\n\S|\Z)` under `DOTALL`:
everything up to the first position holding a newline followed by a
non-whitespace character (left unconsumed), or to the end. -/
def takeUntilNlNonWs : List Char → List Char × List Char
  | [] => ([], [])
  | c :: cs =>
    if c == '\n' then
      match cs with
      | [] =>
        ([c], [])
      | d :: ds =>
        if !isPySpace d then ([], c :: d :: ds)
        else
          let (b, r) := takeUntilNlNonWs cs
          (c :: b, r)
    else
      let (b, r) := takeUntilNlNonWs cs
      (c :: b, r)

/-- One match attempt of the collection-error pattern
`ERROR\s+collecting\s+([\w/\\.]+)\s*.*?\n(.*?)(?=\n\S|\Z)`
(`re.DOTALL`): returns the file group and the detail group, and the
remainder. -/
def matchCollectAt (l : List Char) : Option ((List Char × List Char) × List Char) :=
  match dropLit "ERROR".data l with
  | none => none
  | some r1 =>
    match dropPlus isPySpace r1 with
    | none => none
    | some r2 =>
      match dropLit "collecting".data r2 with
      | none => none
      | some r3 =>
        match dropPlus isPySpace r3 with
        | none => none
        | some r4 =>
          let f := r4.takeWhile isFileChar
          let r5 := r4.dropWhile isFileChar
          if f.isEmpty then none
          else
            match wsDotNl r5 with
            | none => none
            | some r6 =>
              let dr := takeUntilNlNonWs r6
              some ((f, dr.1), dr.2)

/-- Message extraction for a failure block (test_runner.py lines
100-106): strip the block, split on newlines, and take the last
stripped line that is non-empty and does not start with an
underscore. -/
def lastMsg (block : List Char) : List Char :=
  let lines := splitNl (stripWs block)
  match lines.reverse.find?
      (fun l => !(stripWs l).isEmpty && !startsWithUnderscore (stripWs l)) with
  | some l => stripWs l
  | none => []
where
  startsWithUnderscore : List Char → Bool
    | '_' :: _ => true
    | _ => false

/-- Record built from one failure block (test_runner.py lines 95-113):
file and line come from the first `path:line` occurrence in the block
(`unknown` / 0 when absent), the message from `lastMsg`. -/
def blockToRecord (nb : List Char × List Char) : Option FailureRecord :=
  match searchFirst matchFileLineAt nb.2 with
  | some fl =>
    match pyInt fl.2 with
    | none => none
    | some n =>
      some { test_name := stripWs nb.1, file := replaceBackslash fl.1,
             line := n, error_message := lastMsg nb.2 }
  | none =>
    some { test_name := stripWs nb.1, file := replaceBackslash "unknown".data,
           line := 0, error_message := lastMsg nb.2 }

/-- Record built from one collection-error match (test_runner.py lines
122-139): the line number is parsed from the first `line N` occurrence
in the detail text, the message is the stripped detail truncated to 200
characters. -/
def collectToRecord (fd : List Char × List Char) : Option FailureRecord :=
  match searchFirst matchLineNumAt fd.2 with
  | some digits =>
    match pyInt digits with
    | none => none
    | some n =>
      some { test_name := "collection_error:".data ++ fd.1,
             file := replaceBackslash fd.1,
             line := n, error_message := (stripWs fd.2).take 200 }
  | none =>
    some { test_name := "collection_error:".data ++ fd.1,
           file := replaceBackslash fd.1,
           line := 0, error_message := (stripWs fd.2).take 200 }

/-- Build the record list element by element, propagating the first
failure (a raised exception in the Python loop aborts the whole
parse). -/
def optionMapM {a b : Type} (f : a → Option b) : List a → Option (List b)
  | [] => some []
  | x :: xs =>
    match f x with
    | none => none
    | some y =>
      match optionMapM f xs with
      | none => none
      | some ys => some (y :: ys)

/-- The function `parse_pytest_output(output, repo_path)`
(test_runner.py lines 65-139).  The unused `repo_path` parameter and
the unused `failure_sections = re.split(...)` computation (line 84) are
omitted.  Record order follows the source: block records, then — only
when no block record exists and summary matches do — the synthesized
`FAILED`-line records, then collection-error records. -/
def parsePytestOutput (output : List Char) : Option (List FailureRecord) :=
  match optionMapM blockToRecord (pyFindAll matchBlockAt output) with
  | none => none
  | some blockRecs =>
    match optionMapM collectToRecord (pyFindAll matchCollectAt output) with
    | none => none
    | some collectRecs =>
      let failedMatches := pyFindAll matchFailedAt output
      let fallback :=
        if blockRecs.isEmpty && !failedMatches.isEmpty then
          failedMatches.map (fun fm =>
            { test_name := fm.2, file := replaceBackslash fm.1,
              line := 0,
              error_message := "Test ".data ++ fm.2 ++ " failed".data })
        else []
      some (blockRecs ++ fallback ++ collectRecs)

/-! ### Claims C7 and C8 -/

theorem takeWhile_all {α : Type} (p : α → Bool) (l : List α) :
    (l.takeWhile p).all p = true := by
  rw [List.all_eq_true]
  intro x hx
  exact List.mem_takeWhile_imp hx

theorem matchFileLineAt_digits (l : List Char) (b : List Char × List Char)
    (rest : List Char) (h : matchFileLineAt l = some (b, rest)) :
    b.2 ≠ [] ∧ b.2.all Char.isDigit = true := by
  simp only [matchFileLineAt] at h
  split at h
  · exact absurd h (by simp)
  · split at h
    · exact absurd h (by simp)
    · split at h
      · split at h
        · exact absurd h (by simp)
        · rename_i hde
          injection h with h1
          injection h1 with hfst hsnd
          constructor
          · rw [← hfst]
            simpa [List.isEmpty_iff] using hde
          · rw [← hfst]
            exact takeWhile_all Char.isDigit _
      · exact absurd h (by simp)

theorem matchLineNumAt_digits (l : List Char) (b : List Char)
    (rest : List Char) (h : matchLineNumAt l = some (b, rest)) :
    b ≠ [] ∧ b.all Char.isDigit = true := by
  simp only [matchLineNumAt] at h
  split at h
  · exact absurd h (by simp)
  · split at h
    · exact absurd h (by simp)
    · split at h
      · exact absurd h (by simp)
      · rename_i hde
        injection h with h1
        injection h1 with hfst hsnd
        constructor
        · rw [← hfst]
          simpa [List.isEmpty_iff] using hde
        · rw [← hfst]
          exact takeWhile_all Char.isDigit _

theorem searchFirst_preserve {β : Type} (matchAt : List Char → Option (β × List Char))
    (P : β → Prop) (hP : ∀ l b rest, matchAt l = some (b, rest) → P b) :
    ∀ l b, searchFirst matchAt l = some b → P b := by
  intro l
  induction l with
  | nil =>
    intro b h
    unfold searchFirst at h
    rcases hm : matchAt [] with _ | br
    · rw [hm] at h
      simp at h
    · rw [hm] at h
      simp only [Option.map_some'] at h
      obtain rfl := Option.some.inj h
      exact hP [] br.1 br.2 (by rw [hm])
  | cons c cs ih =>
    intro b h
    unfold searchFirst at h
    rcases hm : matchAt (c :: cs) with _ | br
    · rw [hm] at h
      exact ih b h
    · rw [hm] at h
      obtain rfl := Option.some.inj h
      exact hP (c :: cs) br.1 br.2 (by rw [hm])

theorem pyInt_isSome (l : List Char) (h1 : l ≠ []) (h2 : l.all Char.isDigit = true) :
    (pyInt l).isSome := by
  unfold pyInt
  rw [if_pos ⟨h1, h2⟩]
  rfl

theorem blockToRecord_isSome (nb : List Char × List Char) :
    (blockToRecord nb).isSome := by
  unfold blockToRecord
  split
  · rename_i fl hs
    split
    · rename_i hi
      have hd := searchFirst_preserve matchFileLineAt
        (fun b => b.2 ≠ [] ∧ b.2.all Char.isDigit = true)
        matchFileLineAt_digits nb.2 fl hs
      have := pyInt_isSome fl.2 hd.1 hd.2
      rw [hi] at this
      simp at this
    · rfl
  · rfl

theorem collectToRecord_isSome (fd : List Char × List Char) :
    (collectToRecord fd).isSome := by
  unfold collectToRecord
  split
  · rename_i digits hs
    split
    · rename_i hi
      have hd := searchFirst_preserve matchLineNumAt
        (fun b => b ≠ [] ∧ b.all Char.isDigit = true)
        matchLineNumAt_digits fd.2 digits hs
      have := pyInt_isSome digits hd.1 hd.2
      rw [hi] at this
      simp at this
    · rfl
  · rfl

theorem optionMapM_isSome {a b : Type} (f : a → Option b)
    (hf : ∀ x, (f x).isSome) (xs : List a) : (optionMapM f xs).isSome := by
  induction xs with
  | nil => rfl
  | cons x xs ih =>
    unfold optionMapM
    rcases hx : f x with _ | y
    · have := hf x
      rw [hx] at this
      simp at this
    · rcases hxs : optionMapM f xs with _ | ys
      · rw [hxs] at ih
        simp at ih
      · simp

/-- Claim C8: for every input string, `parse_pytest_output` is a pure
total function: modelling each Python `int()` call as fallible, the
parser never fails on any input and always returns a (possibly empty)
list of failure records — every digit group handed to `int()` is a
non-empty run of digits. -/
theorem parse_pytest_output_total (output : List Char) :
    (parsePytestOutput output).isSome := by
  unfold parsePytestOutput
  rcases hb : optionMapM blockToRecord (pyFindAll matchBlockAt output) with _ | blockRecs
  · have := optionMapM_isSome blockToRecord blockToRecord_isSome
      (pyFindAll matchBlockAt output)
    rw [hb] at this
    simp at this
  · rcases hc : optionMapM collectToRecord (pyFindAll matchCollectAt output) with _ | cRecs
    · have := optionMapM_isSome collectToRecord collectToRecord_isSome
        (pyFindAll matchCollectAt output)
      rw [hc] at this
      simp at this
    · simp

/-- Claim C7: for any test output whose summary-line matches are
exactly `FAILED tests/test_math.py::test_add`, with no delimited
failure-section block and no collection-error banner, the parser
returns exactly one failure record with test name `test_add`, file
`tests/test_math.py`, line 0, and message `Test test_add failed`. -/
theorem parse_failed_summary_only (output : List Char)
    (hb : pyFindAll matchBlockAt output = [])
    (hc : pyFindAll matchCollectAt output = [])
    (hf : pyFindAll matchFailedAt output =
      [("tests/test_math.py".data, "test_add".data)]) :
    parsePytestOutput output =
      some [{ test_name := "test_add".data, file := "tests/test_math.py".data,
              line := 0, error_message := "Test test_add failed".data }] := by
  unfold parsePytestOutput
  rw [hb, hc, hf]
  decide

/-- A concrete verbose test-runner output with a single summary line
and no failure-section block. -/
def outC7 : List Char :=
  "collected 1 item\nFAILED tests/test_math.py::test_add - AssertionError\n".data

/-- Witness for C7 on `outC7`. -/
theorem parse_failed_summary_only_witness :
    parsePytestOutput outC7 =
      some [{ test_name := "test_add".data, file := "tests/test_math.py".data,
              line := 0, error_message := "Test test_add failed".data }] :=
  parse_failed_summary_only outC7 (by decide) (by decide) (by decide)

/-! ## Healing orchestrator — `backend/agent/pipeline.py`, `run_pipeline`

`run_pipeline(repo_url, team_name, leader_name, ...)` sequences the
external collaborators (clone, analyze, branch, deterministic detector,
patch engine, test runner, fix provider, commit).  Each collaborator
call is modelled as an environment-supplied `Except String` value — the
error case standing for a raised Python exception, the payload for the
exception text.  Iteration-indexed collaborators receive the index of
the call.  The `status_callback`/`event_callback` emissions, terminal
printing, timestamps and `time_taken` are side effects that do not
influence the returned result record and are not modelled;
`_discover_source_files_from_errors` and `read_file_contents` only
compute the arguments of `ask_for_fixes` and are absorbed into the
provider call.  `deps_installed` only changes an argument of
`run_tests`, which the model indexes by call count anyway.  A patch
list returned by `apply_fixes` is modelled by its status list, which is
all the orchestrator reads from it (`sum(1 for f in applied if
f["status"] == "applied")`). -/

/-- `MAX_ITERATIONS` (pipeline.py line 26). -/
def MAX_ITERATIONS : Nat := 5

/-- Result of `analyze_repo` as consumed by `run_pipeline`. -/
structure Analysis where
  tree : String
  test_files : List String
  language : String
  test_command : String
deriving Repr, DecidableEq

/-- Result of `run_tests`: counts, parsed error dicts (opaque payloads
here) and the raw output. -/
structure TestResults where
  passed : Nat
  failed : Nat
  errors : List String
  raw_output : String
deriving Repr, DecidableEq

/-- Result of `ask_for_fixes` / `detect_and_fix_deterministic`. -/
structure FixResponse where
  fixes : List PatchFix
  commit_title : String
deriving Repr, DecidableEq

/-- Result of `commit_and_push`. -/
structure CommitResult where
  commit_hash : String
  branch : String
  push_success : Bool
deriving Repr, DecidableEq

/-- One entry of `result["iterations"]` (timestamp not modelled). -/
structure IterRecord where
  iteration : Nat
  status : String
  passed : Nat
  failed : Nat
  errors : List String
  fixes_applied : List FixStatus
  commit : Option CommitResult
  is_deterministic : Bool
deriving Repr, DecidableEq

/-- The `result` dict built by `run_pipeline` (pipeline.py lines
300-313; `time_taken` not modelled). -/
structure PipeResult where
  repo_url : String
  team_name : String
  leader_name : String
  branch_name : String
  iterations : List IterRecord
  total_failures_detected : Nat
  total_fixes_applied : Nat
  final_status : String
  all_fixes : List FixStatus
  error : Option String
  analysis : Option Analysis
deriving Repr, DecidableEq

/-- Environment of external collaborator behaviours.  `branchName`
stands for the pure `make_branch_name(team_name, leader_name)` result;
the iteration-indexed fields give the outcome of the k-th call. -/
structure PipeEnv where
  cloneRes : Except String String
  analyzeRes : Except String Analysis
  branchName : String
  branchRes : Except String Unit
  detectRes : Except String FixResponse
  applyDetRes : Except String (List FixStatus)
  commitDetRes : Except String CommitResult
  runTestsRes : Nat → Except String TestResults
  askFixesRes : Nat → Except String FixResponse
  applyRes : Nat → Except String (List FixStatus)
  commitRes : Nat → Except String CommitResult

/-- `sum(1 for f in applied if f["status"] == "applied")`. -/
def countApplied (l : List FixStatus) : Nat :=
  (l.filter (· == FixStatus.applied)).length

/-- The iteration loop `for iteration in range(1, MAX_ITERATIONS + 1)`
(pipeline.py lines 292-479) plus its `else:` clause (lines 481-491).
Returns the result record, the number of `run_tests` invocations made
so far, and the pending exception (if one was raised, with the result
as accumulated at that point).  `remaining` counts the loop passes
still allowed, `iterNo` is the Python loop variable, `calls` the
`run_tests` invocations already made. -/
def pipelineLoop (env : PipeEnv) : Nat → Nat → PipeResult → Nat →
    PipeResult × Nat × Option String
  | 0, _, res, calls =>
    (if res.final_status = "RUNNING" then { res with final_status := "MAX_ITERATIONS" }
     else res, calls, none)
  | r + 1, iterNo, res, calls =>
    match env.runTestsRes calls with
    | .error e => (res, calls + 1, some e)
    | .ok tr =>
      if tr.failed = 0 ∧ tr.errors = [] then
        ({ res with
            iterations := res.iterations ++
              [{ iteration := iterNo, status := "PASSED", passed := tr.passed,
                 failed := tr.failed, errors := tr.errors, fixes_applied := [],
                 commit := none, is_deterministic := false }],
            final_status := "PASSED" }, calls + 1, none)
      else
        let res := { res with total_failures_detected :=
          res.total_failures_detected + tr.failed + tr.errors.length }
        match env.askFixesRes iterNo with
        | .error e => (res, calls + 1, some e)
        | .ok fr =>
          if fr.fixes = [] then
            ({ res with
                iterations := res.iterations ++
                  [{ iteration := iterNo, status := "NO_FIXES", passed := tr.passed,
                     failed := tr.failed, errors := tr.errors, fixes_applied := [],
                     commit := none, is_deterministic := false }],
                final_status := "FAILED" }, calls + 1, none)
          else
            match env.applyRes iterNo with
            | .error e => (res, calls + 1, some e)
            | .ok applied =>
              let res := { res with
                total_fixes_applied := res.total_fixes_applied + countApplied applied,
                all_fixes := res.all_fixes ++ applied }
              if countApplied applied = 0 then
                ({ res with
                    iterations := res.iterations ++
                      [{ iteration := iterNo, status := "NO_FIXES_APPLIED",
                         passed := tr.passed, failed := tr.failed, errors := tr.errors,
                         fixes_applied := applied, commit := none,
                         is_deterministic := false }],
                    final_status := "FAILED" }, calls + 1, none)
              else
                match env.commitRes iterNo with
                | .error e => (res, calls + 1, some e)
                | .ok cr =>
                  let res := { res with
                    iterations := res.iterations ++
                      [{ iteration := iterNo, status := "FIXED", passed := tr.passed,
                         failed := tr.failed, errors := tr.errors,
                         fixes_applied := applied, commit := some cr,
                         is_deterministic := false }] }
                  pipelineLoop env r (iterNo + 1) res (calls + 1)

/-- The `try:` body of `run_pipeline` (pipeline.py lines 142-491):
clone, analyze, record the analysis, record the branch name, create the
branch, run the deterministic pass (apply and commit it when it yields
patches), then enter the iteration loop.  Returns the accumulated
result, the number of `run_tests` invocations, and the pending
exception if one was raised. -/
def runPipelineBody (env : PipeEnv) (repo_url team_name leader_name : String) :
    PipeResult × Nat × Option String :=
  let res0 : PipeResult :=
    { repo_url := repo_url, team_name := team_name, leader_name := leader_name,
      branch_name := "", iterations := [], total_failures_detected := 0,
      total_fixes_applied := 0, final_status := "RUNNING", all_fixes := [],
      error := none, analysis := none }
  match env.cloneRes with
  | .error e => (res0, 0, some e)
  | .ok _ =>
    match env.analyzeRes with
    | .error e => (res0, 0, some e)
    | .ok an =>
      let res1 := { res0 with analysis := some an, branch_name := env.branchName }
      match env.branchRes with
      | .error e => (res1, 0, some e)
      | .ok _ =>
        match env.detectRes with
        | .error e => (res1, 0, some e)
        | .ok det =>
          if det.fixes = [] then
            pipelineLoop env MAX_ITERATIONS 1 res1 0
          else
            match env.applyDetRes with
            | .error e => (res1, 0, some e)
            | .ok applied =>
              let res2 := { res1 with
                total_fixes_applied := res1.total_fixes_applied + countApplied applied,
                all_fixes := res1.all_fixes ++ applied }
              if countApplied applied = 0 then
                pipelineLoop env MAX_ITERATIONS 1 res2 0
              else
                match env.commitDetRes with
                | .error e => (res2, 0, some e)
                | .ok cr =>
                  let res3 := { res2 with
                    iterations := res2.iterations ++
                      [{ iteration := 0, status := "DETERMINISTIC_FIX", passed := 0,
                         failed := 0, errors := [], fixes_applied := applied,
                         commit := some cr, is_deterministic := true }] }
                  pipelineLoop env MAX_ITERATIONS 1 res3 0

/-- `run_pipeline` with its `except Exception` clause (pipeline.py
lines 495-506): a pending exception turns the accumulated result into
the final report with `final_status = "ERROR"` and the exception text
in `error`; everything else in the record is kept.  Also returns the
number of `run_tests` invocations. -/
def runPipelineModel (env : PipeEnv) (repo_url team_name leader_name : String) :
    PipeResult × Nat :=
  match runPipelineBody env repo_url team_name leader_name with
  | (res, calls, some e) => ({ res with final_status := "ERROR", error := some e }, calls)
  | (res, calls, none) => (res, calls)

/-! ### Claims C2 and C3 -/

theorem pipelineLoop_calls_le (env : PipeEnv) :
    ∀ (remaining iterNo : Nat) (res : PipeResult) (calls : Nat),
      (pipelineLoop env remaining iterNo res calls).2.1 ≤ calls + remaining := by
  intro remaining
  induction remaining with
  | zero =>
    intro iterNo res calls
    unfold pipelineLoop
    show calls ≤ calls + 0
    omega
  | succ r ih =>
    intro iterNo res calls
    unfold pipelineLoop
    repeat' split
    all_goals first
      | exact le_trans (ih _ _ _) (by omega)
      | (show calls + 1 ≤ calls + (r + 1)
         omega)

theorem runPipelineBody_calls_le (env : PipeEnv) (ru tn ln : String) :
    (runPipelineBody env ru tn ln).2.1 ≤ MAX_ITERATIONS := by
  unfold runPipelineBody
  repeat' split
  all_goals first
    | exact le_trans (pipelineLoop_calls_le env MAX_ITERATIONS 1 _ 0) (by simp)
    | (show 0 ≤ MAX_ITERATIONS
       exact Nat.zero_le _)

/-- Claim C2: for every behaviour of the external collaborators
(including a fix provider that keeps returning non-empty proposal lists
none of which can be applied), `run_pipeline` terminates — it is a
total function of the environment — and invokes the test runner at
most `MAX_ITERATIONS + 1` times.  (The code in fact calls `run_tests`
at most `MAX_ITERATIONS` times: the deterministic pass runs no
tests.) -/
theorem run_pipeline_test_calls_bound (env : PipeEnv) (ru tn ln : String) :
    (runPipelineModel env ru tn ln).2 ≤ MAX_ITERATIONS + 1 := by
  have h := runPipelineBody_calls_le env ru tn ln
  unfold runPipelineModel
  rcases hb : runPipelineBody env ru tn ln with ⟨res, calls, exc⟩
  rw [hb] at h
  rcases exc with _ | e
  · exact le_trans h (Nat.le_succ _)
  · exact le_trans h (Nat.le_succ _)

/-- Claim C3: if any step of the pipeline raises an unhandled
exception, `run_pipeline` does not propagate it (the model is a total
function): the returned record has the error status `ERROR` as
`final_status`, the exception text in `error`, and the iterations and
fix/failure counts accumulated before the failure are preserved
unchanged. -/
theorem run_pipeline_error_structured (env : PipeEnv) (ru tn ln : String) (e : String)
    (hexc : (runPipelineBody env ru tn ln).2.2 = some e) :
    (runPipelineModel env ru tn ln).1.final_status = "ERROR" ∧
    (runPipelineModel env ru tn ln).1.error = some e ∧
    (runPipelineModel env ru tn ln).1.iterations =
      (runPipelineBody env ru tn ln).1.iterations ∧
    (runPipelineModel env ru tn ln).1.total_fixes_applied =
      (runPipelineBody env ru tn ln).1.total_fixes_applied ∧
    (runPipelineModel env ru tn ln).1.total_failures_detected =
      (runPipelineBody env ru tn ln).1.total_failures_detected := by
  unfold runPipelineModel
  rcases hb : runPipelineBody env ru tn ln with ⟨res, calls, exc⟩
  rw [hb] at hexc
  simp only at hexc
  subst hexc
  simp

/-- Environment for the C3 witness: the clone step raises. -/
def envErr : PipeEnv :=
  { cloneRes := .error "boom",
    analyzeRes := .ok { tree := "", test_files := [], language := "python",
                        test_command := "pytest -v" },
    branchName := "T_L_AI_Fix",
    branchRes := .ok (),
    detectRes := .ok { fixes := [], commit_title := "" },
    applyDetRes := .ok [],
    commitDetRes := .ok { commit_hash := "", branch := "", push_success := false },
    runTestsRes := fun _ => .ok { passed := 1, failed := 0, errors := [],
                                  raw_output := "" },
    askFixesRes := fun _ => .ok { fixes := [], commit_title := "" },
    applyRes := fun _ => .ok [],
    commitRes := fun _ => .ok { commit_hash := "", branch := "", push_success := false } }

/-- Witness for C3: with a failing clone the run still returns a
structured record with status `ERROR` and the exception text. -/
theorem run_pipeline_error_structured_witness :
    (runPipelineModel envErr "u" "t" "l").1.final_status = "ERROR" ∧
    (runPipelineModel envErr "u" "t" "l").1.error = some "boom" := by
  have h := run_pipeline_error_structured envErr "u" "t" "l" "boom" (by rfl)
  exact ⟨h.1, h.2.1⟩

/-! ## Single-flight guard — `backend/app.py`

`start_run` (app.py lines 103-132) checks `current_run["status"] ==
"running"` under `run_lock` and rejects with 409 when it holds, then —
after releasing the lock — spawns the background thread; only
`run_agent_background` (app.py lines 71-77), already on the new thread,
re-acquires the lock and sets the status to `running` before invoking
`run_pipeline`.  The interleaving semantics below models each
lock-protected region as one atomic step and everything between lock
regions as separately scheduled steps, for two concurrent request
handlers (`h1`, `h2`) and the two background threads they may spawn
(`b1`, `b2`).  Program counters: a handler is at 0 before its status
check, at 1 before `thread.start()`, at 2 when finished; a background
thread is at 0 until spawned, at 1 before setting the status, at 2
before `run_pipeline`, at 3 before recording completion, at 4 when
finished.  `launched` counts `run_pipeline` invocations. -/

/-- Shared and per-thread state of the interleaving model. -/
structure AppState where
  status : String
  h1pc : Nat
  h2pc : Nat
  h1Rejected : Bool
  h2Rejected : Bool
  b1pc : Nat
  b2pc : Nat
  launched : Nat
deriving Repr, DecidableEq

/-- Thread identifiers: the two request handlers and the two background
threads. -/
inductive Tid where
  | h1
  | h2
  | b1
  | b2
deriving Repr, DecidableEq

/-- The initial state: status `idle`, nothing spawned. -/
def appInit : AppState :=
  { status := "idle", h1pc := 0, h2pc := 0, h1Rejected := false,
    h2Rejected := false, b1pc := 0, b2pc := 0, launched := 0 }

/-- One scheduled step of the chosen thread (a no-op when that thread
is finished or not yet spawned). -/
def appStep (s : AppState) : Tid → AppState
  | .h1 =>
    if s.h1pc = 0 then
      if s.status = "running" then { s with h1pc := 2, h1Rejected := true }
      else { s with h1pc := 1 }
    else if s.h1pc = 1 then { s with h1pc := 2, b1pc := 1 }
    else s
  | .h2 =>
    if s.h2pc = 0 then
      if s.status = "running" then { s with h2pc := 2, h2Rejected := true }
      else { s with h2pc := 1 }
    else if s.h2pc = 1 then { s with h2pc := 2, b2pc := 1 }
    else s
  | .b1 =>
    if s.b1pc = 1 then { s with b1pc := 2, status := "running" }
    else if s.b1pc = 2 then { s with b1pc := 3, launched := s.launched + 1 }
    else if s.b1pc = 3 then { s with b1pc := 4, status := "done" }
    else s
  | .b2 =>
    if s.b2pc = 1 then { s with b2pc := 2, status := "running" }
    else if s.b2pc = 2 then { s with b2pc := 3, launched := s.launched + 1 }
    else if s.b2pc = 3 then { s with b2pc := 4, status := "done" }
    else s

/-- Run a schedule (a list of scheduled thread identifiers). -/
def runSched (s : AppState) : List Tid → AppState
  | [] => s
  | t :: ts => runSched (appStep s t) ts

/-- Claim C9 failing run: the interleaving in which both handlers pass
the status check before either background thread sets the status to
`running` launches two pipeline runs, and neither request is rejected
— the check (app.py line 107) and the status update (app.py line 72)
happen under separate lock acquisitions, so the guard is not atomic. -/
theorem start_run_race_two_launches :
    (runSched appInit
      [Tid.h1, Tid.h2, Tid.h1, Tid.h2, Tid.b1, Tid.b1, Tid.b1,
       Tid.b2, Tid.b2, Tid.b2]).launched = 2 ∧
    (runSched appInit
      [Tid.h1, Tid.h2, Tid.h1, Tid.h2, Tid.b1, Tid.b1, Tid.b1,
       Tid.b2, Tid.b2, Tid.b2]).h1Rejected = false ∧
    (runSched appInit
      [Tid.h1, Tid.h2, Tid.h1, Tid.h2, Tid.b1, Tid.b1, Tid.b1,
       Tid.b2, Tid.b2, Tid.b2]).h2Rejected = false := by
  decide
